import Mathlib

/-
  Verification of the GolfPad grading platform against its specification.

  The repository ships the React frontend (frontend/src). The FastAPI
  backend (backend/evaluation.py, backend/routers) is not part of the
  available sources, so the evaluation engine, the scoring rule, the
  batch orchestrator and the export endpoint are modelled from the
  specification, with their observable constants taken from the frontend
  (the dashboard prints the rule "2500 - code length, 0.001 when not
  passed"; the batch page documents the task001.py .. task400.py naming).
  Frontend logic that is present in the sources (the upload pre-checks in
  BatchUpload.tsx, the submit-on-pass flow in ProblemDetail.tsx, the
  progress percentages in BatchUpload.tsx) is embedded directly.
-/

namespace GolfPad

/-- Status classification used throughout the system for one test case and
for a whole submission: `passed`, `failed` or `error`, the three status
strings the frontend consumes in CodeExecutionResult.tsx and
ProblemDetail.tsx. -/
inductive CaseOutcome where
  | passed
  | failed
  | error
  deriving DecidableEq, Repr

/-- A grid is a rectangular matrix of small non-negative integers, the shape
of TestCase.input and TestCase.expected_output. -/
abbrev Grid := List (List Nat)

/-- Modelled from the spec: element-wise comparison of one matrix row, part
of the grid-equality rule of the Test Harness (backend/evaluation.py is not
in the available sources). -/
def rowEq : List Nat → List Nat → Bool
  | [], [] => true
  | a :: as, b :: bs => a == b && rowEq as bs
  | _, _ => false

/-- Modelled from the spec: exact matrix comparison used by the Test
Harness — same dimensions and the same integer at every position
(backend/evaluation.py is not in the available sources). -/
def gridEq : Grid → Grid → Bool
  | [], [] => true
  | r :: rs, s :: ss => rowEq r s && gridEq rs ss
  | _, _ => false

/-- Modelled from the spec: the raw observable behaviour of one sandboxed
invocation of the submitted program on one test case, as classified by the
Sandboxed Process Runner (backend/evaluation.py is not in the available
sources). `ok none` stands for output that does not parse into a matrix. -/
inductive RunOutcome where
  | ok (parsed : Option Grid)
  | timeout
  | memoryExceeded
  | runtimeError
  deriving DecidableEq, Repr

/-- Modelled from the spec: classification of a single test case by the
Test Harness — wrong output is `failed`, while timeout, memory kill,
runtime error and malformed output are all `error`
(backend/evaluation.py is not in the available sources). -/
def caseOutcome (expected : Grid) : RunOutcome → CaseOutcome
  | .ok (some m) => if gridEq m expected then .passed else .failed
  | .ok none => .error
  | .timeout => .error
  | .memoryExceeded => .error
  | .runtimeError => .error

/-- Severity rank of a case outcome: errors dominate failures, which
dominate passes, in the Test Harness reduction rule. -/
def severity : CaseOutcome → Nat
  | .passed => 0
  | .failed => 1
  | .error => 2

/-- Combine two case outcomes by keeping the more severe one. -/
def combine (a b : CaseOutcome) : CaseOutcome :=
  if severity a < severity b then b else a

/-- Modelled from the spec: the Test Harness reduction of per-case outcomes
to an overall verdict (backend/evaluation.py is not in the available
sources): it accumulates the most severe outcome, starting from `passed`
for the empty list. -/
def reduceVerdict (l : List CaseOutcome) : CaseOutcome :=
  l.foldr combine .passed

/-- One test case: an input matrix and the expected output matrix. -/
structure TestCase where
  input : Grid
  expected : Grid
  deriving DecidableEq, Repr

/-- Modelled from the spec: the verdict produced by one evaluation —
overall status, the per-test-case outcomes, and the maxima of the observed
wall times and peak memory (backend/evaluation.py is not in the available
sources). -/
structure Verdict where
  status : CaseOutcome
  perCase : List CaseOutcome
  wallTimeMs : Nat
  peakMemoryMb : Nat
  deriving DecidableEq, Repr

/-- Modelled from the spec: run one submission behaviour over all test
cases of a problem, in order (backend/evaluation.py is not in the
available sources). -/
def evaluateOutcomes (behavior : Grid → RunOutcome) (cases : List TestCase) :
    List CaseOutcome :=
  cases.map (fun tc => caseOutcome tc.expected (behavior tc.input))

/-- Modelled from the spec: full evaluation of a submission. The functional
behaviour of the submitted program on each input is `behavior`; the timing
and memory observations of the runs are the separate list `timings`, since
they vary between runs while the functional behaviour does not
(backend/evaluation.py is not in the available sources). -/
def evaluate (behavior : Grid → RunOutcome) (timings : List (Nat × Nat))
    (cases : List TestCase) : Verdict :=
  let outs := evaluateOutcomes behavior cases
  { status := reduceVerdict outs
    perCase := outs
    wallTimeMs := (timings.map Prod.fst).foldr max 0
    peakMemoryMb := (timings.map Prod.snd).foldr max 0 }

/-- Modelled from the spec: evaluating a (language, sourceText) pair against
a problem. `sem` is the fixed semantics of the language runtimes: the
functional behaviour of a program is determined by its language and its
source text, so two evaluations of the identical triple share it
(backend/evaluation.py is not in the available sources). -/
def evalSubmission (sem : String → String → Grid → RunOutcome)
    (lang src : String) (timings : List (Nat × Nat))
    (cases : List TestCase) : Verdict :=
  evaluate (sem lang src) timings cases

/-- The golf ceiling: the dashboard (Dashboard.tsx) prints the scoring rule
as 2500 minus the code length. -/
def baseScore : ℚ := 2500

/-- The attempted floor for non-passing submissions: the dashboard
(Dashboard.tsx) prints it as 0.001. -/
def attemptedFloor : ℚ := 1 / 1000

/-- Modelled from the spec: the Scoring Engine rule — a passing submission
scores the golf ceiling minus its code length, unclamped; any other verdict
scores the fixed attempted floor (the backend Scoring Engine is not in the
available sources; the constants 2500 and 0.001 are those printed by
Dashboard.tsx). -/
def score (passed : Bool) (codeLength : Nat) : ℚ :=
  if passed then baseScore - codeLength else attemptedFloor

/-- Lifecycle states of a batch job, as rendered by BatchUpload.tsx and
described by the spec's state machine. -/
inductive BatchStatus where
  | received
  | processing
  | completed
  | failed
  deriving DecidableEq, Repr

/-- Observable state of a BatchJob: its status, the number of processed
entries and the total number of recognized entries. This is the snapshot
the frontend polls (BatchUpload.tsx, pollBatchStatus). -/
structure BatchJob where
  status : BatchStatus
  processed : Nat
  total : Nat
  deriving DecidableEq, Repr

/-- Modelled from the spec: creation of a BatchJob for an archive with
`total` recognized entries (the backend Batch Orchestrator is not in the
available sources). A job with no recognized entries has every entry
processed already, so the orchestrator completes it at once; a non-empty
job starts in the `received` state with nothing processed. -/
def mkBatchJob (total : Nat) : BatchJob :=
  { status := if total = 0 then .completed else .received
    processed := 0
    total := total }

/-- Modelled from the spec: the transitions the Batch Orchestrator performs
on a BatchJob (the backend Batch Orchestrator is not in the available
sources). The driving worker starts a received job, processes recognized
entries in order, completes the job atomically with its last entry, and may
fail mid-batch on an unrecoverable internal fault. -/
inductive BatchStep : BatchJob → BatchJob → Prop where
  | start (j : BatchJob) (h : j.status = .received) :
      BatchStep j { j with status := .processing }
  | process (j : BatchJob) (h : j.status = .processing)
      (hlt : j.processed + 1 < j.total) :
      BatchStep j { j with processed := j.processed + 1 }
  | finishLast (j : BatchJob) (h : j.status = .processing)
      (hlast : j.processed + 1 = j.total) :
      BatchStep j { status := .completed, processed := j.total, total := j.total }
  | fault (j : BatchJob) (h : j.status = .processing)
      (hlt : j.processed < j.total) :
      BatchStep j { j with status := .failed }

/-- States of a BatchJob reachable during the lifetime of a job created for
`total` recognized entries. -/
def BatchReachable (total : Nat) (j : BatchJob) : Prop :=
  Relation.ReflTransGen BatchStep (mkBatchJob total) j

/-- Invariant tying a BatchJob's progress counter to its status. -/
def BatchInv (j : BatchJob) : Prop :=
  (j.status = .completed → j.processed = j.total) ∧
  (j.status ≠ .completed → j.processed < j.total)

/-- An upload candidate as seen by the browser: its filename, its declared
media type and its size in bytes (the File object of BatchUpload.tsx). -/
structure UploadFile where
  name : String
  mediaType : String
  size : Nat
  deriving DecidableEq, Repr

/-- The media type the upload pre-check accepts (BatchUpload.tsx). -/
def zipMediaType : String := "application/zip"

/-- The filename ending the upload pre-check accepts (BatchUpload.tsx). -/
def zipNameEnding : String := ".zip"

/-- Character-level model of the JavaScript String.prototype.endsWith used
by BatchUpload.tsx: the second string is a suffix of the first. -/
def strEnds (s t : String) : Bool :=
  List.isSuffixOf t.data s.data

/-- Embeds the isZip test of BatchUpload.tsx, uploadProps.beforeUpload:
the file passes when its media type is application/zip or its name ends in
.zip. -/
def isZipFile (f : UploadFile) : Bool :=
  f.mediaType == zipMediaType || strEnds f.name zipNameEnding

/-- Embeds uploadProps.beforeUpload of BatchUpload.tsx: reject non-zip
files, then reject files of 50 MB or more (the JS test
size / 1024 / 1024 < 50 on an integral size is exact, so integer division
models it faithfully). Returning false cancels the upload: customRequest is
never invoked for the file. -/
def beforeUpload (f : UploadFile) : Bool :=
  if !isZipFile f then
    false
  else if !decide (f.size / 1024 / 1024 < 50) then
    false
  else
    true

/-- Embeds the upload flow of BatchUpload.tsx: the POST to
/batch-submissions/upload — the request whose response is the created
BatchJob — is issued exactly for the files that pass beforeUpload. -/
def uploadFlow (f : UploadFile) : Option UploadFile :=
  if beforeUpload f then some f else none

/-- A persisted submission record: its target problem, its source text and
its verdict status (the Submission rows read back by the frontend). -/
structure Submission where
  problemId : Nat
  code : String
  status : CaseOutcome
  deriving DecidableEq, Repr

/-- Problems for which the given (chronologically ordered) submission
history contains at least one passing submission. -/
def passedProblems (subs : List Submission) : List Nat :=
  ((subs.filter (fun s => s.status == .passed)).map (fun s => s.problemId)).dedup

/-- Source of the most recent submission to problem `p` in the given
chronologically ordered history, if any. -/
def latestCode (subs : List Submission) (p : Nat) : Option String :=
  ((subs.filter (fun s => s.problemId == p)).map (fun s => s.code)).getLast?

/-- Zero-pads a problem number to three digits, as in the task001.py ..
task400.py naming documented by BatchUpload.tsx. -/
def pad3 (n : Nat) : String :=
  if n < 10 then "00" ++ toString n
  else if n < 100 then "0" ++ toString n
  else toString n

/-- The fixed per-problem filename convention of the export archive. -/
def taskFilename (p : Nat) : String :=
  "task" ++ pad3 p ++ ".py"

/-- Failure mode of the export endpoint: the frontend (ExportLatest.tsx)
maps an HTTP 404 to "nothing to export". -/
inductive ExportError where
  | notFound
  deriving DecidableEq, Repr

/-- Modelled from the spec: the export endpoint behind
GET /submissions/export/latest (the backend submissions router is not in
the available sources). It fails with NotFound when the user has no passing
submissions; otherwise it returns, for each problem the user has ever
passed, one archive entry pairing the fixed per-problem filename with the
source of the user's most recent submission to that problem. -/
def exportLatest (subs : List Submission) :
    Except ExportError (List (String × String)) :=
  if (passedProblems subs).isEmpty then
    .error .notFound
  else
    .ok ((passedProblems subs).filterMap (fun p =>
      (latestCode subs p).map (fun c => (taskFilename p, c))))

/-- Observable effects of the interactive solve flow in ProblemDetail.tsx:
the execute request, the conditional submission POST, and the user-facing
message. -/
inductive ApiAction where
  | postExecute (problemId : Nat) (code lang : String)
  | postSubmission (problemId : Nat) (code lang : String)
  | messageSuccess
  | messageWarning
  | messageFailure
  deriving DecidableEq, Repr

/-- Embeds handleRunCode of ProblemDetail.tsx: it always POSTs to
/problems/:id/execute, then POSTs to /submissions only when the returned
status is passed, showing a success message; a failed status shows a
warning and an error status an error message, with no submission POST. -/
def handleRunCode (problemId : Nat) (code lang : String)
    (resultStatus : CaseOutcome) : List ApiAction :=
  ApiAction.postExecute problemId code lang ::
    (match resultStatus with
     | .passed => [ApiAction.postSubmission problemId code lang,
                   ApiAction.messageSuccess]
     | .failed => [ApiAction.messageWarning]
     | .error => [ApiAction.messageFailure])

/-- Embeds the batch-progress percentage of BatchUpload.tsx, identical at
its three display sites (the history table's Progress column, the
processing Statistic and the current-batch Progress bar):
total_problems > 0 ? Math.round(processed / total * 100) : 0. -/
def progressPercent (processed total : Nat) : ℤ :=
  if 0 < total then round ((processed * 100 : ℚ) / total) else 0

/-- Sample language tag used by concrete instantiations. -/
def sampleLang : String := "python"

/-- Sample source text used by concrete instantiations. -/
def sampleCode : String := "print(1)"

/-- Sample submission history used by concrete instantiations: one passing
submission to problem 1. -/
def sampleSubs : List Submission :=
  [{ problemId := 1, code := sampleCode, status := .passed }]

/-- Sample upload candidate whose declared media type is not the zip format
but whose name ends in .zip. -/
def mislabeledUpload : UploadFile :=
  { name := "solutions.zip", mediaType := "text/plain", size := 1000 }

/-- Sample upload candidate at exactly the 50 MB ceiling. -/
def oversizedUpload : UploadFile :=
  { name := "solutions.zip", mediaType := zipMediaType, size := 50 * 1024 * 1024 }

/-- Row comparison agrees with propositional equality of rows. -/
theorem rowEq_iff (a b : List Nat) : rowEq a b = true ↔ a = b := by
  induction a generalizing b with
  | nil => cases b <;> simp [rowEq]
  | cons x xs ih => cases b <;> simp [rowEq, ih]

/-- Grid comparison agrees with propositional equality of matrices: it holds
exactly when the dimensions agree and every cell agrees. -/
theorem gridEq_iff (a b : Grid) : gridEq a b = true ↔ a = b := by
  induction a generalizing b with
  | nil => cases b <;> simp [gridEq]
  | cons r rs ih => cases b <;> simp [gridEq, rowEq_iff, ih]

/-- Unfolding lemma for the verdict reduction. -/
theorem reduceVerdict_cons (o : CaseOutcome) (l : List CaseOutcome) :
    reduceVerdict (o :: l) = combine o (reduceVerdict l) := rfl

/-- The reduced verdict is `error` exactly when some case produced
`error`. -/
theorem reduceVerdict_eq_error_iff (l : List CaseOutcome) :
    reduceVerdict l = .error ↔ .error ∈ l := by
  induction l with
  | nil => simp [reduceVerdict]
  | cons o l ih =>
    rw [reduceVerdict_cons]
    cases o <;> cases hl : reduceVerdict l <;>
      simp_all [combine, severity]

/-- The reduced verdict is `passed` exactly when every case passed. -/
theorem reduceVerdict_eq_passed_iff (l : List CaseOutcome) :
    reduceVerdict l = .passed ↔ ∀ o ∈ l, o = .passed := by
  induction l with
  | nil => simp [reduceVerdict]
  | cons o l ih =>
    rw [reduceVerdict_cons]
    cases o <;> cases hl : reduceVerdict l <;>
      simp_all [combine, severity] <;> assumption

/-- The reduced verdict is `failed` exactly when some case failed and none
produced `error`. -/
theorem reduceVerdict_eq_failed_iff (l : List CaseOutcome) :
    reduceVerdict l = .failed ↔ (.failed ∈ l ∧ .error ∉ l) := by
  constructor
  · intro h
    have herr : CaseOutcome.error ∉ l := fun hm =>
      by simpa [h] using (reduceVerdict_eq_error_iff l).mpr hm
    have hnotall : ¬ ∀ o ∈ l, o = CaseOutcome.passed := fun hall =>
      by simpa [h] using (reduceVerdict_eq_passed_iff l).mpr hall
    push_neg at hnotall
    obtain ⟨o, ho, hne⟩ := hnotall
    have hof : o = CaseOutcome.failed := by
      cases o
      · exact absurd rfl hne
      · rfl
      · exact absurd ho herr
    exact ⟨hof ▸ ho, herr⟩
  · rintro ⟨hf, he⟩
    cases hr : reduceVerdict l
    · have := (reduceVerdict_eq_passed_iff l).mp hr _ hf
      exact absurd this (by decide)
    · rfl
    · exact absurd ((reduceVerdict_eq_error_iff l).mp hr) he

/-- Claim C1: the overall verdict is `passed` iff every test case passed;
otherwise it is `failed` if at least one case produced `failed` and none
produced `error`, otherwise it is `error`; in particular a submission whose
cases all passed except one timeout reduces to `error`, never `passed`. -/
theorem c1_verdict_reduction (l pre post : List CaseOutcome) (expected : Grid)
    (hpre : ∀ o ∈ pre, o = CaseOutcome.passed)
    (hpost : ∀ o ∈ post, o = CaseOutcome.passed) :
    (reduceVerdict l = .passed ↔ ∀ o ∈ l, o = .passed) ∧
    (reduceVerdict l = .failed ↔ (.failed ∈ l ∧ .error ∉ l)) ∧
    (reduceVerdict l = .error ↔ .error ∈ l) ∧
    reduceVerdict (pre ++ caseOutcome expected .timeout :: post) = .error ∧
    reduceVerdict (pre ++ caseOutcome expected .timeout :: post) ≠ .passed := by
  have htimeout : caseOutcome expected .timeout = .error := rfl
  have hmem : CaseOutcome.error ∈ pre ++ caseOutcome expected .timeout :: post := by
    rw [htimeout]
    exact List.mem_append_right pre (List.mem_cons_self _ _)
  have herr : reduceVerdict (pre ++ caseOutcome expected .timeout :: post) = .error :=
    (reduceVerdict_eq_error_iff _).mpr hmem
  refine ⟨reduceVerdict_eq_passed_iff l, reduceVerdict_eq_failed_iff l,
    reduceVerdict_eq_error_iff l, herr, ?_⟩
  rw [herr]
  simp

/-- Concrete instance of C1: one passing case before and after a timeout
still reduces to `error`. -/
theorem c1_verdict_reduction_witness :
    reduceVerdict ([CaseOutcome.passed] ++
      caseOutcome [[0]] RunOutcome.timeout :: [CaseOutcome.passed]) =
      CaseOutcome.error :=
  (c1_verdict_reduction [] [CaseOutcome.passed] [CaseOutcome.passed] [[0]]
    (by simp) (by simp)).2.2.2.1

/-- Claim C4: a test case's actual output matrix is compared to the
expected matrix by exact element-wise equality; any mismatch — a single
differing cell or differing dimensions — makes the case `failed`, never
`error`. -/
theorem c4_exact_grid_equality (expected actual : Grid) :
    (gridEq actual expected = true ↔ actual = expected) ∧
    (caseOutcome expected (.ok (some actual)) = .passed ↔ actual = expected) ∧
    (actual ≠ expected → caseOutcome expected (.ok (some actual)) = .failed) ∧
    (actual.length ≠ expected.length →
      caseOutcome expected (.ok (some actual)) = .failed) := by
  have hiff := gridEq_iff actual expected
  refine ⟨hiff, ?_, ?_, ?_⟩
  · constructor
    · intro h
      by_contra hne
      have : gridEq actual expected = false := by
        cases hg : gridEq actual expected
        · rfl
        · exact absurd (hiff.mp hg) hne
      simp [caseOutcome, this] at h
    · intro h
      simp [caseOutcome, hiff.mpr h]
  · intro hne
    have : gridEq actual expected = false := by
      cases hg : gridEq actual expected
      · rfl
      · exact absurd (hiff.mp hg) hne
    simp [caseOutcome, this]
  · intro hlen
    have hne : actual ≠ expected := fun h => hlen (by rw [h])
    have : gridEq actual expected = false := by
      cases hg : gridEq actual expected
      · rfl
      · exact absurd (hiff.mp hg) hne
    simp [caseOutcome, this]

/-- Concrete instance of C4, the spec's section 8 example: returning the
input unchanged against an inverted expected grid yields `failed`. -/
theorem c4_exact_grid_equality_witness :
    caseOutcome [[1, 0], [0, 1]] (RunOutcome.ok (some [[0, 1], [1, 0]])) =
      CaseOutcome.failed :=
  (c4_exact_grid_equality [[1, 0], [0, 1]] [[0, 1], [1, 0]]).2.2.1 (by decide)

/-- Claim C2: a passing submission scores BASE_SCORE minus its code length
with BASE_SCORE = 2500, unclamped — negative for code longer than 2500 —
so shorter passing code never scores below longer passing code. -/
theorem c2_passing_score (len len1 len2 : Nat) (h : len1 ≤ len2) :
    score true len = baseScore - len ∧
    baseScore = 2500 ∧
    (2500 < len → score true len < 0) ∧
    score true len2 ≤ score true len1 := by
  have hval : ∀ n : Nat, score true n = 2500 - (n : ℚ) := fun n => by
    simp [score, baseScore]
  refine ⟨rfl, rfl, ?_, ?_⟩
  · intro hlen
    have hc : (2500 : ℚ) < len := by exact_mod_cast hlen
    rw [hval]
    linarith
  · have hc : (len1 : ℚ) ≤ len2 := by exact_mod_cast h
    rw [hval, hval]
    linarith

/-- Concrete instance of C2: a 2501-character passing program scores
negatively, and 3 characters score at least as much as 5. -/
theorem c2_passing_score_witness :
    score true 2501 < 0 ∧ score true 5 ≤ score true 3 :=
  ⟨(c2_passing_score 2501 3 5 (by decide)).2.2.1 (by decide),
   (c2_passing_score 2501 3 5 (by decide)).2.2.2⟩

/-- Claim C3 fails as stated: the attempted floor 0.001 is not strictly less
than every passing score, because passing scores are unclamped — a passing
submission of exactly 2500 characters scores 0, which is below the 0.001
floor of a non-passing submission. -/
theorem c3_attempted_floor_counterexample :
    score false 9999 = attemptedFloor ∧
    score true 2500 = 0 ∧
    ¬ score false 9999 < score true 2500 := by
  refine ⟨rfl, ?_, ?_⟩
  · simp [score, baseScore]
  · simp only [score, attemptedFloor, baseScore]
    norm_num

/-- Claim C3 (amended): every non-passing submission scores the fixed floor
0.001, which is strictly positive and strictly below the score of any
passing submission shorter than BASE_SCORE characters. -/
theorem c3_attempted_floor (flen len : Nat) (h : len < 2500) :
    score false flen = attemptedFloor ∧
    0 < attemptedFloor ∧
    score false flen < score true len := by
  refine ⟨rfl, by norm_num [attemptedFloor], ?_⟩
  have hq : (len : ℚ) ≤ 2499 := by exact_mod_cast Nat.lt_succ_iff.mp h
  have hval : score true len = 2500 - (len : ℚ) := by
    simp [score, baseScore]
  have hflr : score false flen = 1 / 1000 := rfl
  rw [hval, hflr]
  linarith

/-- Concrete instance of the amended C3: a failed attempt scores 0.001,
below the 2400 points of a 100-character passing program. -/
theorem c3_attempted_floor_witness :
    score false 7 = attemptedFloor ∧
    0 < attemptedFloor ∧
    score false 7 < score true 100 :=
  c3_attempted_floor 7 100 (by decide)

/-- Claim C8: two evaluations of the identical (problemId, language,
sourceText) triple — hence with the same functional behaviour, under
possibly different timing and memory observations — produce verdicts with
identical status and identical per-test-case outcomes. -/
theorem c8_deterministic_verdict (sem : String → String → Grid → RunOutcome)
    (lang src : String) (t1 t2 : List (Nat × Nat)) (cases : List TestCase) :
    (evalSubmission sem lang src t1 cases).status =
      (evalSubmission sem lang src t2 cases).status ∧
    (evalSubmission sem lang src t1 cases).perCase =
      (evalSubmission sem lang src t2 cases).perCase :=
  ⟨rfl, rfl⟩

/-- Claim C9: in the interactive solve flow of ProblemDetail.tsx, the
submission-persisting POST to /submissions is issued exactly when the
execution result's status is `passed`. -/
theorem c9_submit_iff_passed (pid : Nat) (code lang : String)
    (st : CaseOutcome) :
    ApiAction.postSubmission pid code lang ∈ handleRunCode pid code lang st ↔
      st = CaseOutcome.passed := by
  cases st <;> simp [handleRunCode]

/-- Concrete instance of C9: a passed run issues the submission POST. -/
theorem c9_submit_iff_passed_witness :
    ApiAction.postSubmission 1 sampleCode sampleLang ∈
      handleRunCode 1 sampleCode sampleLang CaseOutcome.passed :=
  (c9_submit_iff_passed 1 sampleCode sampleLang CaseOutcome.passed).mpr rfl

/-- Claim C10: every batch-progress percentage shown by BatchUpload.tsx is
the rounded ratio only under the guard total > 0 and is 0 when total = 0,
so the display never divides by zero; in range it stays within 0..100. -/
theorem c10_progress_percent (p t : Nat) (hle : p ≤ t) :
    progressPercent p 0 = 0 ∧
    (0 < t → progressPercent p t = round ((p * 100 : ℚ) / t)) ∧
    0 ≤ progressPercent p t ∧
    progressPercent p t ≤ 100 := by
  refine ⟨rfl, fun ht => by simp [progressPercent, ht], ?_, ?_⟩
  · rcases Nat.eq_zero_or_pos t with ht | ht
    · simp [progressPercent, ht]
    · have htq : (0 : ℚ) < t := by exact_mod_cast ht
      have hx : (0 : ℚ) ≤ (p * 100 : ℚ) / t :=
        div_nonneg (by positivity) (le_of_lt htq)
      simp only [progressPercent, if_pos ht]
      rw [round_eq]
      exact Int.le_floor.mpr (by push_cast; linarith)
  · rcases Nat.eq_zero_or_pos t with ht | ht
    · simp [progressPercent, ht]
    · have htq : (0 : ℚ) < t := by exact_mod_cast ht
      have hpq : (p : ℚ) ≤ t := by exact_mod_cast hle
      have hx : (p * 100 : ℚ) / t ≤ 100 := by
        rw [div_le_iff htq]
        linarith
      simp only [progressPercent, if_pos ht]
      rw [round_eq]
      have : ((p * 100 : ℚ) / t + 1 / 2) ≤ 100 + 1 / 2 := by linarith
      calc ⌊(p * 100 : ℚ) / t + 1 / 2⌋ ≤ ⌊(100 : ℚ) + 1 / 2⌋ := Int.floor_mono this
        _ = 100 := by norm_num [Int.floor_eq_iff]

/-- Concrete instance of C10: at 3 of 4 processed the display shows a
well-defined percentage between 0 and 100, and a zero total shows 0. -/
theorem c10_progress_percent_witness :
    progressPercent 3 0 = 0 ∧
    (0 < 4 → progressPercent 3 4 = round ((3 * 100 : ℚ) / 4)) ∧
    0 ≤ progressPercent 3 4 ∧
    progressPercent 3 4 ≤ 100 :=
  c10_progress_percent 3 4 (by decide)

/-- Every single orchestrator transition keeps the processed counter from
decreasing. -/
theorem batchStep_mono {j j' : BatchJob} (h : BatchStep j j') :
    j.processed ≤ j'.processed := by
  cases h with
  | start hs => exact Nat.le_refl _
  | process hs hlt => exact Nat.le_succ _
  | finishLast hs hlast => simp; omega
  | fault hs hlt => exact Nat.le_refl _

/-- Along any sequence of orchestrator transitions the processed counter is
non-decreasing. -/
theorem batchSteps_mono {j j' : BatchJob}
    (h : Relation.ReflTransGen BatchStep j j') :
    j.processed ≤ j'.processed := by
  induction h with
  | refl => exact Nat.le_refl _
  | tail _ hstep ih => exact le_trans ih (batchStep_mono hstep)

/-- Every orchestrator transition preserves the batch invariant. -/
theorem batchStep_inv {j j' : BatchJob} (hinv : BatchInv j)
    (h : BatchStep j j') : BatchInv j' := by
  cases h with
  | start hs =>
    refine ⟨fun hc => absurd hc (by simp), fun _ => hinv.2 ?_⟩
    rw [hs]
    simp
  | process hs hlt =>
    refine ⟨fun hc => ?_, fun _ => ?_⟩
    · simp [hs] at hc
    · simpa using hlt
  | finishLast hs hlast =>
    exact ⟨fun _ => rfl, fun hne => absurd rfl hne⟩
  | fault hs hlt =>
    exact ⟨fun hc => absurd hc (by simp), fun _ => by simpa using hlt⟩

/-- A freshly created BatchJob satisfies the batch invariant. -/
theorem mkBatchJob_inv (t : Nat) : BatchInv (mkBatchJob t) := by
  rcases Nat.eq_zero_or_pos t with ht | ht
  · subst ht
    exact ⟨fun _ => rfl, fun hne => absurd rfl hne⟩
  · have ht0 : t ≠ 0 := Nat.pos_iff_ne_zero.mp ht
    constructor
    · intro hc
      exfalso
      simp [mkBatchJob, ht0] at hc
    · intro _
      simpa [mkBatchJob] using ht

/-- Every reachable state of a BatchJob satisfies the batch invariant. -/
theorem batchReachable_inv (t : Nat) (j : BatchJob)
    (h : BatchReachable t j) : BatchInv j := by
  induction h with
  | refl => exact mkBatchJob_inv t
  | tail _ hstep ih => exact batchStep_inv ih hstep

/-- Claim C5: over the lifetime of any BatchJob the processed counter is
non-decreasing across successive observations, and it equals the total
counter exactly when the job's status is `completed`. -/
theorem c5_batch_progress (t : Nat) (j j' : BatchJob)
    (hj : BatchReachable t j)
    (hsteps : Relation.ReflTransGen BatchStep j j') :
    j.processed ≤ j'.processed ∧
    (j.status = BatchStatus.completed ↔ j.processed = j.total) := by
  have hinv := batchReachable_inv t j hj
  refine ⟨batchSteps_mono hsteps, hinv.1, ?_⟩
  intro hpt
  by_contra hne
  have := hinv.2 hne
  omega

/-- Concrete instance of C5: a fresh one-entry job has a stable counter and
is not yet completed. -/
theorem c5_batch_progress_witness :
    (mkBatchJob 1).processed ≤ (mkBatchJob 1).processed ∧
    ((mkBatchJob 1).status = BatchStatus.completed ↔
      (mkBatchJob 1).processed = (mkBatchJob 1).total) :=
  c5_batch_progress 1 (mkBatchJob 1) (mkBatchJob 1)
    Relation.ReflTransGen.refl Relation.ReflTransGen.refl

/-- Claim C6 fails as stated: the pre-upload check of BatchUpload.tsx does
not reject every file whose media type is not the zip format — a file
declared text/plain is accepted, and its upload request issued, whenever
its name merely ends in .zip. -/
theorem c6_upload_counterexample :
    mislabeledUpload.mediaType ≠ zipMediaType ∧
    beforeUpload mislabeledUpload = true ∧
    uploadFlow mislabeledUpload = some mislabeledUpload := by
  refine ⟨by decide, by decide, by decide⟩

/-- Claim C6 (amended): the pre-upload check of BatchUpload.tsx rejects
every file of 50 MB or more and every file that neither declares the zip
media type nor has a name ending in .zip; a rejected file's upload request
is never issued, so no BatchJob is created for it. -/
theorem c6_upload_rejection (f : UploadFile) :
    (50 * 1024 * 1024 ≤ f.size → beforeUpload f = false) ∧
    ((f.mediaType ≠ zipMediaType ∧ strEnds f.name zipNameEnding = false) →
      beforeUpload f = false) ∧
    (beforeUpload f = false → uploadFlow f = none) := by
  refine ⟨?_, ?_, ?_⟩
  · intro hsize
    have hdiv : ¬ f.size / 1024 / 1024 < 50 := by omega
    unfold beforeUpload
    cases hz : isZipFile f
    · simp
    · simp [hdiv]
  · rintro ⟨hmt, hname⟩
    have hz : isZipFile f = false := by
      unfold isZipFile
      rw [hname]
      simp [beq_eq_false_iff_ne, hmt]
    unfold beforeUpload
    simp [hz]
  · intro hb
    unfold uploadFlow
    simp [hb]

/-- Concrete instance of the amended C6: a 50 MB zip archive is rejected
by the pre-upload check. -/
theorem c6_upload_rejection_witness :
    beforeUpload oversizedUpload = false :=
  (c6_upload_rejection oversizedUpload).1 (by decide)

/-- The passed-problem list is empty exactly when the history holds no
passing submission. -/
theorem passedProblems_eq_nil_iff (subs : List Submission) :
    passedProblems subs = [] ↔ ∀ s ∈ subs, s.status ≠ CaseOutcome.passed := by
  simp [passedProblems, List.dedup_eq_nil, List.map_eq_nil_iff,
    List.filter_eq_nil_iff, beq_eq_false_iff_ne]

/-- Membership in the passed-problem list means some passing submission
targets that problem. -/
theorem mem_passedProblems {subs : List Submission} {p : Nat} :
    p ∈ passedProblems subs ↔
      ∃ s ∈ subs, s.status = CaseOutcome.passed ∧ s.problemId = p := by
  simp [passedProblems, List.mem_dedup, List.mem_map, List.mem_filter,
    beq_iff_eq, and_assoc]

/-- A problem with a passing submission has a most recent submission. -/
theorem latestCode_isSome_of_passed {subs : List Submission} {p : Nat}
    (h : ∃ s ∈ subs, s.status = CaseOutcome.passed ∧ s.problemId = p) :
    ∃ c, latestCode subs p = some c := by
  obtain ⟨s, hs, _, hpid⟩ := h
  have hmem : s.code ∈
      (subs.filter (fun s => s.problemId == p)).map (fun s => s.code) :=
    List.mem_map_of_mem _ (List.mem_filter.mpr ⟨hs, by simp [hpid]⟩)
  exact Option.isSome_iff_exists.mp
    (List.getLast?_isSome.mpr (List.ne_nil_of_mem hmem))

/-- Claim C7: the export returns NotFound exactly when the user has no
passing submission, and otherwise its archive holds, for every problem the
user has ever passed, an entry with the fixed per-problem filename and the
source of the user's most recent submission to that problem. -/
theorem c7_export_latest (subs : List Submission) :
    (exportLatest subs = Except.error ExportError.notFound ↔
      ∀ s ∈ subs, s.status ≠ CaseOutcome.passed) ∧
    (∀ p entries, exportLatest subs = Except.ok entries →
      p ∈ passedProblems subs →
      ∃ c, latestCode subs p = some c ∧ (taskFilename p, c) ∈ entries) := by
  constructor
  · constructor
    · intro h
      by_contra hnp
      push_neg at hnp
      obtain ⟨s, hs, hp⟩ := hnp
      have hne : passedProblems subs ≠ [] := by
        rw [Ne, passedProblems_eq_nil_iff]
        push_neg
        exact ⟨s, hs, hp⟩
      have hE : (passedProblems subs).isEmpty = false := by
        simpa [List.isEmpty_iff] using hne
      unfold exportLatest at h
      rw [hE] at h
      simp at h
    · intro h
      have hnil : passedProblems subs = [] :=
        (passedProblems_eq_nil_iff subs).mpr h
      unfold exportLatest
      rw [hnil]
      rfl
  · intro p entries hok hp
    obtain ⟨c, hc⟩ := latestCode_isSome_of_passed (mem_passedProblems.mp hp)
    refine ⟨c, hc, ?_⟩
    have hE : (passedProblems subs).isEmpty = false := by
      have : passedProblems subs ≠ [] := List.ne_nil_of_mem hp
      simpa [List.isEmpty_iff] using this
    unfold exportLatest at hok
    rw [hE] at hok
    simp at hok
    first
      | rw [← hok]
      | rw [hok]
    exact List.mem_filterMap.mpr ⟨p, hp, by rw [hc]; rfl⟩

/-- Concrete instance of C7: with one passing submission to problem 1 the
export archive holds the task001.py entry with that submission's source. -/
theorem c7_export_latest_witness :
    ∃ c, latestCode sampleSubs 1 = some c ∧
      (taskFilename 1, c) ∈ [(taskFilename 1, sampleCode)] :=
  (c7_export_latest sampleSubs).2 1 [(taskFilename 1, sampleCode)]
    rfl (by decide)

end GolfPad
